import Mathlib

/-!
Verification of the django-fsspec filesystem layer.

This file shallowly embeds the two core components of the repository:

* `TransparentFS.*` — the overlay filesystem (`src/django_fsspec/transparent_fs.py`):
  a writable `delta` ("transparent") filesystem layered over a read-only `base`
  filesystem, with logical deletion / directory replacement recorded as
  `.deleted` / `.replaced` marker entries inside `delta`.
* `NestedFS.*` — the routing filesystem (`src/django_fsspec/nested_fs.py`):
  a mapping from a top-level path segment to a backing filesystem, with a
  `"default"` fallback mount.

Modelling conventions:

* Overlay paths are modelled as their `/`-split segment lists (`Pth`); the
  Python source's `path.split("/")` is the segment list itself, and appending a
  marker suffix string to a joined path corresponds to appending the suffix to
  the last segment (`addSuffix`).  A path string always splits into at least
  one segment, so the empty segment list never arises from a real path.
* Python dictionaries are modelled as insertion-ordered association lists
  (`dictInsert` = `d[k] = v`, `dictErase` = `del d[k]` with `none` modelling
  `KeyError`, `dictGet` = `d.get(k)`).
* Backing filesystems are external collaborators (spec §6); they are modelled
  as finite maps from paths to nodes, with the capability operations the core
  components invoke (`exists`, `touch`, `rm_file`, `read_text`, `mkdirs`).
* Fallible Python code is modelled with `Except String`; an uncaught Python
  exception is an `Except.error` carrying the exception's description.
-/

/-! ## Kernel-computable string primitives

Python's `str.split`, `str.endswith`, negative slicing and `"/".join` are
re-implemented over the character list of a `String`, faithful to the Python
semantics (and kernel-reducible, unlike the library versions). -/

/-- Split a character list on a separator character; like Python `split`, the
result always has at least one (possibly empty) piece. -/
def splitOnChar (c : Char) : List Char → List (List Char)
  | [] => [[]]
  | x :: xs =>
      let r := splitOnChar c xs
      if x = c then [] :: r
      else
        match r with
        | [] => [[x]]
        | y :: ys => (x :: y) :: ys

/-- Python `s.split("/")`. -/
def strSplitSlash (s : String) : List String :=
  (splitOnChar '/' s.data).map (fun l => ⟨l⟩)

/-- Python `s.endswith(pat)`. -/
def strEndsWith (s pat : String) : Bool :=
  s.data.drop (s.data.length - pat.data.length) == pat.data

/-- Python `s[:-n]` (for `n ≤ len(s)`; shorter strings are cut to empty). -/
def strDropRight (s : String) (n : Nat) : String :=
  ⟨s.data.take (s.data.length - n)⟩

/-- Python `sep.join(pieces)`. -/
def strIntercalate (sep : String) : List String → String
  | [] => ""
  | [s] => s
  | s :: rest => s ++ sep ++ strIntercalate sep rest

/-! ## Python dict model -/

/-- `d[k] = v` on an insertion-ordered dictionary: replace in place if the key
is present, else append at the end. -/
def dictInsert {K V : Type} [DecidableEq K] (m : List (K × V)) (k : K) (v : V) :
    List (K × V) :=
  match m with
  | [] => [(k, v)]
  | (k', v') :: rest =>
      if k' = k then (k, v) :: rest else (k', v') :: dictInsert rest k v

/-- `del d[k]`: `none` models the `KeyError` raised when the key is absent. -/
def dictErase {K V : Type} [DecidableEq K] (m : List (K × V)) (k : K) :
    Option (List (K × V)) :=
  match m with
  | [] => none
  | (k', v') :: rest =>
      if k' = k then some rest
      else (dictErase rest k).map ((k', v') :: ·)

/-- Dictionary lookup. -/
def dictGet {K V : Type} [DecidableEq K] (m : List (K × V)) (k : K) : Option V :=
  match m with
  | [] => none
  | (k', v) :: rest => if k' = k then some v else dictGet rest k

/-! ## Backing filesystem model (spec §6 capability interface) -/

/-- A filesystem entry: a file with textual content, or a directory. -/
inductive Node where
  | file (content : String)
  | dir
deriving DecidableEq, Repr

/-- Overlay paths: the `/`-split segment list of a path string. -/
abbrev Pth := List String

/-- A backing filesystem for the overlay: a finite map from segment paths to
nodes.  This models the capability interface of spec §6 that
`transparent_fs`/`base_fs` must satisfy. -/
structure FS where
  entries : List (Pth × Node)
deriving DecidableEq, Repr

/-- `fs.exists(path)`. -/
def FS.existsB (fs : FS) (p : Pth) : Bool :=
  (dictGet fs.entries p).isSome

/-- `fs.touch(path)`: create an empty file if the path is absent (an existing
entry merely gets its timestamp refreshed, which the model drops). -/
def FS.touch (fs : FS) (p : Pth) : FS :=
  if fs.existsB p then fs else ⟨dictInsert fs.entries p (Node.file "")⟩

/-- `fs.rm_file(path)`: remove the entry; raises `FileNotFoundError` when the
path is absent. -/
def FS.rm_file (fs : FS) (p : Pth) : Except String FS :=
  match dictErase fs.entries p with
  | some e => Except.ok ⟨e⟩
  | none => Except.error "FileNotFoundError"

/-- `fs.read_text(path)`. -/
def FS.read_text (fs : FS) (p : Pth) : Except String String :=
  match dictGet fs.entries p with
  | some (Node.file c) => Except.ok c
  | some Node.dir => Except.error "IsADirectoryError"
  | none => Except.error "FileNotFoundError"

/-- Append a marker suffix string to a joined path: on segment lists this
appends the suffix to the last segment (`"a/b" + ".deleted" = "a/b.deleted"`). -/
def addSuffix (suf : String) : Pth → Pth
  | [] => [suf]
  | [s] => [s ++ suf]
  | s :: rest => s :: addSuffix suf rest

/-- `fs.mkdirs(path, exist_ok=True)`: create the directory and every missing
ancestor (existing entries are left untouched). -/
def FS.mkdirs (fs : FS) (p : Pth) : FS :=
  ((List.range p.length).map (fun i => p.take (i + 1))).foldl
    (fun f q => if f.existsB q then f else ⟨dictInsert f.entries q Node.dir⟩) fs

/-! ## Overlay filesystem (transparent_fs.py) -/

/-- `TransparentFileSystem._get_path_tree` (transparent_fs.py lines 87-90): the
ancestor chain of a path, root to leaf, ending with the path itself.  On
segment lists the joined prefixes `"/".join(split_path[:i])` are the takes. -/
def TransparentFS.getPathTree (p : Pth) : List Pth :=
  (List.range p.length).map (fun i => p.take (i + 1))

/-- `ExistsReturn` (transparent_fs.py lines 11-23).  `exists_` is the Python
`exists` field, `where_` the `where` field (0: transparent_fs, 1: base_fs);
`modification` is 0 (none), 1 (deleted) or 2 (replaced). -/
structure ExistsReturn where
  exists_ : Bool
  where_ : Nat
  modification : Nat
  path : Pth
deriving DecidableEq, Repr

/-- The loop body of `TransparentFileSystem._check_exists_and_where`
(transparent_fs.py lines 99-114), recursing over the remaining ancestor chain
with the `check_base_fs` and `modification` loop state. -/
def TransparentFS.checkFrom (delta base : FS) (path : Pth) :
    List Pth → Bool → Nat → ExistsReturn
  | [], checkBase, modification =>
      if checkBase then ⟨base.existsB path, 1, modification, path⟩
      else ⟨false, 0, modification, path⟩
  | pt :: rest, checkBase, modification =>
      if delta.existsB pt then
        if pt = path then ⟨true, 0, 0, pt⟩
        else TransparentFS.checkFrom delta base path rest checkBase modification
      else if delta.existsB (addSuffix ".deleted" pt) then ⟨false, 0, 1, pt⟩
      else if delta.existsB (addSuffix ".replaced" pt) then
        TransparentFS.checkFrom delta base path rest false 2
      else TransparentFS.checkFrom delta base path rest checkBase modification

/-- The overlay's state: the writable `transparent_fs` layer (`delta`) and the
read-only `base_fs` layer (`base`). -/
structure OverlayState where
  delta : FS
  base : FS
deriving DecidableEq, Repr

/-- `TransparentFileSystem._check_exists_and_where` (transparent_fs.py lines
92-114). -/
def TransparentFS.check (st : OverlayState) (p : Pth) : ExistsReturn :=
  TransparentFS.checkFrom st.delta st.base p (TransparentFS.getPathTree p) true 0

/-- `TransparentFileSystem.exists` (transparent_fs.py lines 116-119). -/
def TransparentFS.existsB (st : OverlayState) (p : Pth) : Bool :=
  (TransparentFS.check st p).exists_

/-- Which layer `TransparentFileSystem.__leading_fs` (transparent_fs.py lines
255-261) returns.  The source returns the `self.transparent_fs` or
`self.base_fs` object; callers compare the result against those two distinct
attributes, which the tag models. -/
inductive Layer where
  | delta
  | base
deriving DecidableEq, Repr

/-- `TransparentFileSystem.__leading_fs` (transparent_fs.py lines 255-261). -/
def TransparentFS.leadingFs (st : OverlayState) (p : Pth) : Layer :=
  let ex := TransparentFS.check st p
  if !ex.exists_ then Layer.delta
  else if ex.where_ = 0 then Layer.delta
  else Layer.base

/-- `TransparentFileSystem.rm_file` (transparent_fs.py lines 362-369): if the
leading filesystem is `delta`, remove the path there; otherwise only create
the `path + ".deleted"` marker file in `delta`.  `base` is never written. -/
def TransparentFS.rm_file (st : OverlayState) (p : Pth) :
    Except String OverlayState :=
  match TransparentFS.leadingFs st p with
  | Layer.delta => (FS.rm_file st.delta p).map (fun d => ⟨d, st.base⟩)
  | Layer.base => Except.ok ⟨st.delta.touch (addSuffix ".deleted" p), st.base⟩

/-- `str(Path(path).parent)`: drop the last segment; for a single-segment path
the parent is `"."`. -/
def pathParent (p : Pth) : Pth :=
  match p with
  | [] => ["."]
  | [_] => ["."]
  | _ => p.dropLast

/-- `TransparentFileSystem.open(path, "w")` followed by writing content `c`
through the returned handle (transparent_fs.py lines 405-435): the `"w"`
branch of `__get_fs_for_open` ensures the parent directory chain exists in
`delta` (`mkdirs(parent, exist_ok=True)`) and returns `delta`, so the write
lands at `path` in `delta`. -/
def TransparentFS.openW (st : OverlayState) (p : Pth) (c : String) :
    OverlayState :=
  let d := st.delta.mkdirs (pathParent p)
  ⟨⟨dictInsert d.entries p (Node.file c)⟩, st.base⟩

/-- `TransparentFileSystem.read_text` (transparent_fs.py lines 281-283):
delegate to the leading filesystem. -/
def TransparentFS.read_text (st : OverlayState) (p : Pth) :
    Except String String :=
  match TransparentFS.leadingFs st p with
  | Layer.delta => st.delta.read_text p
  | Layer.base => st.base.read_text p

/-- Total projection of the base layer out of an overlay operation's result:
on an error (no new state) the old base is kept. -/
def baseOf (r : Except String OverlayState) (old : FS) : FS :=
  match r with
  | Except.ok st => st.base
  | Except.error _ => old

/-! ## Overlay directory listing (transparent_fs.py lines 182-200) -/

/-- A detail record of a directory listing (the dictionaries `ls` yields);
the synthetic empty-directory entry built for a `.replaced` marker populates
exactly these five fields. -/
structure LsItem where
  name : String
  type : String
  size : Nat
  created : Nat
  modified : Nat
deriving DecidableEq, Repr

/-- A value yielded by a backing `ls` call, as the Python code receives it: a
detail record (a dict, produced with `detail=True`) or a bare name string
(produced with `detail=False`).  `TransparentFileSystem.ls` forwards its one
`detail` flag to both backing calls, so in any single real call both listings
consist of items of the same shape. -/
inductive PyLsItem where
  | record (it : LsItem)
  | str (s : String)
deriving DecidableEq, Repr

/-- Python `item["name"]`: works on a detail record; indexing a bare name
string with a string key raises `TypeError`. -/
def pyName (item : PyLsItem) : Except String String :=
  match item with
  | PyLsItem.record it => Except.ok it.name
  | PyLsItem.str _ => Except.error "TypeError: string indices must be integers"

/-- The dict comprehension `{item["name"]: item for item in base_fs.ls(...)}`
of `TransparentFileSystem.ls` (transparent_fs.py lines 183-186), raising at
the first item that cannot be indexed with `"name"`. -/
def TransparentFS.lsBaseMap :
    List PyLsItem → List (String × PyLsItem) →
      Except String (List (String × PyLsItem))
  | [], acc => Except.ok acc
  | item :: rest, acc =>
      match pyName item with
      | Except.error e => Except.error e
      | Except.ok nm => TransparentFS.lsBaseMap rest (dictInsert acc nm item)

/-- One iteration of the delta loop of `TransparentFileSystem.ls`
(transparent_fs.py lines 187-199).  `item.endswith(...)` exists only on a bare
name string; a detail record (a dict) has no `endswith`, so the loop raises on
it.  For a string: a `.deleted`-suffixed entry deletes the stripped key
(`KeyError` if absent), a `.replaced`-suffixed entry maps the stripped key to
a synthetic empty-directory record, any other entry overwrites or adds its own
key (`out[item] = item` stores the bare string). -/
def TransparentFS.lsStep (m : List (String × PyLsItem)) (item : PyLsItem) :
    Except String (List (String × PyLsItem)) :=
  match item with
  | PyLsItem.record _ =>
      Except.error "AttributeError: dict object has no attribute endswith"
  | PyLsItem.str s =>
      if strEndsWith s ".deleted" then
        match dictErase m (strDropRight s 8) with
        | some m' => Except.ok m'
        | none => Except.error "KeyError"
      else if strEndsWith s ".replaced" then
        Except.ok (dictInsert m (strDropRight s 9)
          (PyLsItem.record ⟨strDropRight s 9, "directory", 0, 0, 0⟩))
      else
        Except.ok (dictInsert m s (PyLsItem.str s))

/-- `TransparentFileSystem.ls` (transparent_fs.py lines 182-200), parameterized
by the two backing listings it consumes: `baseList` is what
`base_fs.ls(path, detail=detail)` yielded and `deltaList` what
`transparent_fs.ls(path, detail=detail)` yielded — one shared `detail` flag,
so both lists carry the same item shape.  Build base's name-to-entry mapping,
fold the delta listing over it, return the value view of the merged mapping. -/
def TransparentFS.ls (baseList deltaList : List PyLsItem) :
    Except String (List PyLsItem) :=
  match TransparentFS.lsBaseMap baseList [] with
  | Except.error e => Except.error e
  | Except.ok m0 =>
      match deltaList.foldlM TransparentFS.lsStep m0 with
      | Except.ok m => Except.ok (m.map Prod.snd)
      | Except.error e => Except.error e

/-! ## Routing filesystem (nested_fs.py) -/

/-- A backing filesystem for the routing component, keyed by raw path
strings (the routing layer never inspects path internals beyond the first
segment, so a flat map suffices as the §6 capability model). -/
structure FSb where
  entries : List (String × Node)
deriving DecidableEq, Repr

/-- `fs.exists(path)` on a routing-side backing filesystem. -/
def FSb.existsB (fs : FSb) (p : String) : Bool :=
  (dictGet fs.entries p).isSome

/-- `path.split("/", 1)`: at most one split, at the first slash. -/
def splitFirst (path : String) : List String :=
  match strSplitSlash path with
  | [] => [path]
  | [s] => [s]
  | s :: rest => [s, strIntercalate "/" rest]

/-- The first `/`-separated segment of a path. -/
def firstSegment (path : String) : String :=
  match strSplitSlash path with
  | [] => path
  | s :: _ => s

/-- The routing filesystem's state: the `file_systems` mount table built from
`path_storage_configs` (nested_fs.py lines 62-76); the reserved key
`"default"` names the fallback mount. -/
structure NestedFS where
  file_systems : List (String × FSb)
deriving DecidableEq, Repr

/-- `NestedFileSystem._get_filesystem` (nested_fs.py lines 82-98): split the
path at the first slash; a whole-path or first-segment mount-key match strips
the key, otherwise the entire original path is passed, unstripped, to the
`"default"` mount (`KeyError` when no default mount is configured). -/
def NestedFS._get_filesystem (n : NestedFS) (path : String) :
    Except String (FSb × String × String) :=
  match splitFirst path with
  | [] => Except.error "unreachable: split returns at least one part"
  | [one] =>
      match dictGet n.file_systems one with
      | some fs => Except.ok (fs, one, "")
      | none =>
          match dictGet n.file_systems "default" with
          | some fs => Except.ok (fs, "", path)
          | none => Except.error "KeyError: default"
  | root :: rest :: _ =>
      match dictGet n.file_systems root with
      | some fs => Except.ok (fs, root, rest)
      | none =>
          match dictGet n.file_systems "default" with
          | some fs => Except.ok (fs, "", path)
          | none => Except.error "KeyError: default"

/-- `NestedFileSystem.exists` (nested_fs.py lines 173-177): resolve, then
delegate to the resolved filesystem on the translated path (the `fs is None`
guard in the source is unreachable, since `_get_filesystem` never returns
`None`; a missing default mount raises instead). -/
def NestedFS.existsB (n : NestedFS) (path : String) : Except String Bool :=
  match n._get_filesystem path with
  | Except.error e => Except.error e
  | Except.ok (fs, _root, nested) => Except.ok (fs.existsB nested)

/-- `NestedFileSystem.rmdir` (nested_fs.py lines 112-118): refuse the
synthesized root path, else resolve and delegate; the result records the
backing filesystem and translated path that receive the `rmdir` call. -/
def NestedFS.rmdir (n : NestedFS) (path : String) :
    Except String (FSb × String) :=
  if path = "" then Except.error "ValueError: Cannot remove root path"
  else
    match n._get_filesystem path with
    | Except.error e => Except.error e
    | Except.ok (fs, _root, nested) => Except.ok (fs, nested)

/-- `NestedFileSystem.rm` (nested_fs.py lines 290-302): resolve (no root-path
guard), adjust `maxdepth` by the depth of the consumed mount key when one was
consumed, and delegate; the result records the backing filesystem, translated
path, and arguments of the delegated `fs.rm(nested_path, recursive, maxdepth)`
call. -/
def NestedFS.rm (n : NestedFS) (path : String) (recursive : Bool)
    (maxdepth : Option Int) : Except String (FSb × String × Bool × Option Int) :=
  match n._get_filesystem path with
  | Except.error e => Except.error e
  | Except.ok (fs, root_path, nested) =>
      let maxdepth' :=
        match maxdepth with
        | some md =>
            if root_path ≠ "" then some (md - (strSplitSlash root_path).length)
            else some md
        | none => none
      Except.ok (fs, nested, recursive, maxdepth')

/-- A Python value bound by tuple unpacking in `cp_file`/`mv`: either one of
the resolved filesystems or one of the path strings. -/
inductive PyVal where
  | pfs (f : FSb)
  | pstr (s : String)
deriving DecidableEq, Repr

/-- The tuple `self._get_filesystem(path)` evaluates to, as the heterogeneous
3-element sequence Python sees during unpacking. -/
def NestedFS.getFilesystemTuple (n : NestedFS) (path : String) :
    Except String (List PyVal) :=
  match n._get_filesystem path with
  | Except.error e => Except.error e
  | Except.ok (fs, root, nested) =>
      Except.ok [PyVal.pfs fs, PyVal.pstr root, PyVal.pstr nested]

/-- Python's `a, b = xs` two-name tuple unpacking: raises `ValueError` unless
the sequence has exactly two elements. -/
def unpack2 (xs : List PyVal) : Except String (PyVal × PyVal) :=
  match xs with
  | [a, b] => Except.ok (a, b)
  | _ => Except.error "ValueError: too many values to unpack (expected 2)"

/-- `NestedFileSystem.cp_file` (nested_fs.py lines 263-270): the source binds
`fs1, nested_path1 = self._get_filesystem(path1)` (and likewise for `path2`),
a two-name unpacking of the 3-tuple `_get_filesystem` returns.  The subsequent
same-filesystem delegation / cross-filesystem put is unreachable, because the
unpacking raises first; the model returns the four bound names so the (dead)
continuation has its inputs. -/
def NestedFS.cp_file (n : NestedFS) (path1 path2 : String) :
    Except String (PyVal × PyVal × PyVal × PyVal) :=
  match n.getFilesystemTuple path1 with
  | Except.error e => Except.error e
  | Except.ok t1 =>
      match unpack2 t1 with
      | Except.error e => Except.error e
      | Except.ok (fs1, nested_path1) =>
          match n.getFilesystemTuple path2 with
          | Except.error e => Except.error e
          | Except.ok t2 =>
              match unpack2 t2 with
              | Except.error e => Except.error e
              | Except.ok (fs2, nested_path2) =>
                  Except.ok (fs1, nested_path1, fs2, nested_path2)

/-- `NestedFileSystem.mv` (nested_fs.py lines 276-284): same two-name
unpacking of the 3-tuple as `cp_file`, hence the same unconditional
`ValueError`; the same-filesystem rename / copy-then-remove continuation is
unreachable. -/
def NestedFS.mv (n : NestedFS) (path1 path2 : String) :
    Except String (PyVal × PyVal × PyVal × PyVal) :=
  match n.getFilesystemTuple path1 with
  | Except.error e => Except.error e
  | Except.ok t1 =>
      match unpack2 t1 with
      | Except.error e => Except.error e
      | Except.ok (fs1, nested_path1) =>
          match n.getFilesystemTuple path2 with
          | Except.error e => Except.error e
          | Except.ok t2 =>
              match unpack2 t2 with
              | Except.error e => Except.error e
              | Except.ok (fs2, nested_path2) =>
                  Except.ok (fs1, nested_path1, fs2, nested_path2)

/-- `true` exactly when the computation raised. -/
def isErr {α : Type} : Except String α → Bool
  | Except.error _ => true
  | Except.ok _ => false

/-- One `(dirPath, subdirNames, fileNames)` triple of a `walk`. -/
abbrev WalkTriple := String × List String × List String

/-- `NestedFileSystem.walk`, `path == ""` branch (nested_fs.py lines 148-167).
The backing mounts' sequences are external collaborators (§6) and are passed
in: `defaultWalk` is the default mount's `walk("")` output and `mountLs k` the
root listing of mount `k`.  At the root triple the non-default mount keys are
appended to the subdirectory names.  For each non-default mount the source
evaluates `maxdepth - 1` (a `TypeError` when `maxdepth` is `None`) and then
iterates `fs.ls("")` unpacking each listing record into three names (a
`ValueError` for any real record); both are modelled as errors, reached only
when a non-default mount exists, respectively when its listing is non-empty. -/
def NestedFS.walkRoot (n : NestedFS) (defaultWalk : List WalkTriple)
    (mountLs : String → List LsItem) (maxdepth : Option Int) :
    Except String (List WalkTriple) :=
  let part1 :=
    if (dictGet n.file_systems "default").isSome then
      defaultWalk.map (fun t =>
        if t.1 = "" then
          ("", t.2.1 ++ (n.file_systems.map Prod.fst).filter (· ≠ "default"),
            t.2.2)
        else t)
    else []
  match n.file_systems.foldlM (fun acc kv =>
      if kv.1 = "default" then Except.ok acc
      else
        match maxdepth with
        | none =>
            Except.error "TypeError: unsupported operand type(s) for -"
        | some _ =>
            match mountLs kv.1 with
            | [] => Except.ok acc
            | _ :: _ =>
                Except.error
                  "ValueError: cannot unpack a listing record into three names")
      ([] : List WalkTriple) with
  | Except.ok part2 => Except.ok (part1 ++ part2)
  | Except.error e => Except.error e

/-- `NestedFileSystem.walk` (nested_fs.py lines 144-167): the whole body sits
under `if path == "":`, so for any other starting path the generator returns
immediately and yields nothing. -/
def NestedFS.walk (n : NestedFS) (defaultWalk : List WalkTriple)
    (mountLs : String → List LsItem) (path : String) (maxdepth : Option Int) :
    Except String (List WalkTriple) :=
  if path = "" then n.walkRoot defaultWalk mountLs maxdepth
  else Except.ok []

/-! ## TransparentFileSystem.lexists (transparent_fs.py lines 263-267) -/

/-- Attribute lookup for `self._get_filesystem` on a `TransparentFileSystem`
instance: the class body of transparent_fs.py defines no such method, and the
inherited capability interface (spec §6) provides none either, so the lookup
finds nothing. -/
def TransparentFS.getFilesystemAttr :
    Option (Pth → Option FS × String × Pth) :=
  none

/-- `TransparentFileSystem.lexists` (transparent_fs.py lines 263-267): the
body calls `self._get_filesystem(path)`; that attribute does not exist, so the
call raises `AttributeError` before anything else runs.  The dead continuation
(`fs is None` check, delegation of `lexists` to the resolved filesystem) is
modelled in the unreachable `some` branch. -/
def TransparentFS.lexists (_st : OverlayState) (p : Pth) : Except String Bool :=
  match TransparentFS.getFilesystemAttr with
  | none =>
      Except.error
        "AttributeError: TransparentFileSystem has no attribute _get_filesystem"
  | some f =>
      match f p with
      | (none, _, _) => Except.ok false
      | (some fs, _, nested) => Except.ok (fs.existsB nested)

/-! ## Dictionary lemmas -/

theorem dictGet_insert_self {K V : Type} [DecidableEq K] (m : List (K × V))
    (k : K) (v : V) : dictGet (dictInsert m k v) k = some v := by
  induction m with
  | nil => simp [dictInsert, dictGet]
  | cons kv rest ih =>
      obtain ⟨k', v'⟩ := kv
      by_cases h : k' = k
      · simp [dictInsert, dictGet, h]
      · simp [dictInsert, dictGet, h, ih]

/-! ## Ancestor-chain lemmas for the overlay resolution -/

/-- The ancestor chain of a non-empty path ends with the path itself, and all
earlier chain elements are strictly shorter. -/
theorem getPathTree_decomp (p : Pth) (hp : p ≠ []) :
    ∃ init, TransparentFS.getPathTree p = init ++ [p] ∧
      ∀ x ∈ init, x.length < p.length := by
  obtain ⟨m, hm⟩ : ∃ m, p.length = m + 1 := by
    refine ⟨p.length - 1, ?_⟩
    have : p.length ≠ 0 := fun h => hp (List.eq_nil_of_length_eq_zero h)
    omega
  refine ⟨(List.range m).map (fun i => p.take (i + 1)), ?_, ?_⟩
  · unfold TransparentFS.getPathTree
    rw [hm, List.range_succ, List.map_append]
    simp only [List.map_cons, List.map_nil, List.append_cancel_left_eq,
      List.cons.injEq, and_true]
    rw [← hm]
    exact List.take_length p
  · intro x hx
    simp only [List.mem_map, List.mem_range] at hx
    obtain ⟨i, hi, rfl⟩ := hx
    rw [List.length_take]
    omega

/-- If the scanned chain contains an element that is absent from `delta` but
whose `.deleted` marker is present, and no chain element strictly before it
can trigger the `pt == path` early success, the scan reports non-existence. -/
theorem checkFrom_exists_false_of_deleted (delta base : FS) (path : Pth)
    (l₁ l₂ : List Pth) (a : Pth) (cb : Bool) (m : Nat)
    (h₁ : ∀ x ∈ l₁, x = path → delta.existsB x = false)
    (ha : delta.existsB a = false)
    (hd : delta.existsB (addSuffix ".deleted" a) = true) :
    (TransparentFS.checkFrom delta base path (l₁ ++ a :: l₂) cb m).exists_ =
      false := by
  induction l₁ generalizing cb m with
  | nil => simp [TransparentFS.checkFrom, ha, hd]
  | cons x l₁ ih =>
      have hx := h₁ x (by simp)
      by_cases hex : delta.existsB x
      · have hxp : x ≠ path := by
          intro h
          rw [hx h] at hex
          exact Bool.noConfusion hex
        simp only [List.cons_append, TransparentFS.checkFrom, hex, if_true,
          hxp, if_false]
        exact ih cb m (fun y hy => h₁ y (by simp [hy]))
      · by_cases hdel : delta.existsB (addSuffix ".deleted" x)
        · simp [TransparentFS.checkFrom, hex, hdel]
        · by_cases hrep : delta.existsB (addSuffix ".replaced" x)
          · simp only [List.cons_append, TransparentFS.checkFrom, hex, hdel,
              hrep]
            simp only [Bool.false_eq_true, if_false, if_true]
            exact ih false 2 (fun y hy => h₁ y (by simp [hy]))
          · simp only [List.cons_append, TransparentFS.checkFrom, hex, hdel,
              hrep]
            simp only [Bool.false_eq_true, if_false]
            exact ih cb m (fun y hy => h₁ y (by simp [hy]))

/-- If the queried path is on the scanned chain and present in `delta`, the
scan never falls through to `base`: the reported layer is `delta` (`where_ =
0`). -/
theorem checkFrom_where_zero_of_mem (delta base : FS) (path : Pth)
    (l : List Pth) (cb : Bool) (m : Nat)
    (hmem : path ∈ l) (hex : delta.existsB path = true) :
    (TransparentFS.checkFrom delta base path l cb m).where_ = 0 := by
  induction l generalizing cb m with
  | nil => simp at hmem
  | cons x l ih =>
      by_cases hxp : x = path
      · subst hxp
        simp [TransparentFS.checkFrom, hex]
      · have hmem' : path ∈ l := by
          rcases List.mem_cons.mp hmem with h | h
          · exact absurd h.symm hxp
          · exact h
        by_cases hx : delta.existsB x
        · simp only [TransparentFS.checkFrom, hx, if_true, hxp, if_false]
          exact ih cb m hmem'
        · by_cases hdel : delta.existsB (addSuffix ".deleted" x)
          · simp [TransparentFS.checkFrom, hx, hdel]
          · by_cases hrep : delta.existsB (addSuffix ".replaced" x)
            · simp only [TransparentFS.checkFrom, hx, hdel, hrep]
              simp only [Bool.false_eq_true, if_false, if_true]
              exact ih false 2 hmem'
            · simp only [TransparentFS.checkFrom, hx, hdel, hrep]
              simp only [Bool.false_eq_true, if_false]
              exact ih cb m hmem'

/-- The scan's `modification` output is 1 only at the `.deleted` early return,
which also reports non-existence with `delta` as the layer (provided the
incoming loop state is not already 1, as at the top-level call). -/
theorem checkFrom_modification_one (delta base : FS) (path : Pth)
    (l : List Pth) (cb : Bool) (m : Nat) (hm : m ≠ 1)
    (h1 : (TransparentFS.checkFrom delta base path l cb m).modification = 1) :
    (TransparentFS.checkFrom delta base path l cb m).exists_ = false ∧
      (TransparentFS.checkFrom delta base path l cb m).where_ = 0 := by
  induction l generalizing cb m with
  | nil =>
      cases cb with
      | false => simp [TransparentFS.checkFrom]
      | true =>
          simp [TransparentFS.checkFrom] at h1 ⊢
          exact absurd h1 hm
  | cons x l ih =>
      by_cases hx : delta.existsB x
      · by_cases hxp : x = path
        · subst hxp
          simp [TransparentFS.checkFrom, hx] at h1
        · simp only [TransparentFS.checkFrom, hx, if_true, hxp, if_false] at h1 ⊢
          exact ih cb m hm h1
      · by_cases hdel : delta.existsB (addSuffix ".deleted" x)
        · simp [TransparentFS.checkFrom, hx, hdel]
        · by_cases hrep : delta.existsB (addSuffix ".replaced" x)
          · simp only [TransparentFS.checkFrom, hx, hdel, hrep] at h1 ⊢
            simp only [Bool.false_eq_true, if_false, if_true] at h1 ⊢
            exact ih false 2 (by omega) h1
          · simp only [TransparentFS.checkFrom, hx, hdel, hrep] at h1 ⊢
            simp only [Bool.false_eq_true, if_false] at h1 ⊢
            exact ih cb m hm h1

/-! ## Claim theorems: overlay existence resolution -/

/-- C1: For every path `p` queried on the overlay, if some element of `p`'s
ancestor chain (walked root to leaf) is absent from `delta` but has a
`.deleted` marker entry in `delta`, then `TransparentFileSystem.exists(p)`
returns `False`, regardless of what `base` contains — `base` is not the
authority for such a path. -/
theorem c1_overlay_exists_false_of_deleted_ancestor
    (st : OverlayState) (p a : Pth)
    (hmem : a ∈ TransparentFS.getPathTree p)
    (ha : st.delta.existsB a = false)
    (hd : st.delta.existsB (addSuffix ".deleted" a) = true) :
    TransparentFS.existsB st p = false := by
  have hp : p ≠ [] := by
    intro h
    subst h
    simp [TransparentFS.getPathTree] at hmem
  obtain ⟨init, htree, hlen⟩ := getPathTree_decomp p hp
  unfold TransparentFS.existsB TransparentFS.check
  rw [htree]
  rw [htree] at hmem
  rcases List.mem_append.mp hmem with hainit | halast
  · obtain ⟨s, t, hst⟩ := List.append_of_mem hainit
    subst hst
    rw [List.append_assoc, List.cons_append]
    refine checkFrom_exists_false_of_deleted st.delta st.base p s (t ++ [p]) a
      true 0 ?_ ha hd
    intro x hx hxp
    have hxi : x ∈ s ++ a :: t := List.mem_append_left _ hx
    exact ((lt_irrefl p.length) (hxp ▸ hlen x hxi)).elim
  · have hap : a = p := by simpa using halast
    subst hap
    refine checkFrom_exists_false_of_deleted st.delta st.base a init [] a
      true 0 ?_ ha hd
    intro x hx hxp
    exact ((lt_irrefl a.length) (hxp ▸ hlen x hx)).elim

/-- Witness for C1 at a concrete overlay: `delta` holds only the marker
`a.deleted`, `base` holds `a/b`; the ancestor `a` is absent from `delta`, its
marker is present, `base.exists("a/b")` is true, and yet
`Overlay.exists("a/b")` is false. -/
theorem c1_witness :
    (["a"] ∈ TransparentFS.getPathTree ["a", "b"]) ∧
      FS.existsB ⟨[(["a.deleted"], Node.file "")]⟩ ["a"] = false ∧
      FS.existsB ⟨[(["a.deleted"], Node.file "")]⟩
        (addSuffix ".deleted" ["a"]) = true ∧
      FS.existsB ⟨[(["a", "b"], Node.file "v")]⟩ ["a", "b"] = true ∧
      TransparentFS.existsB
        ⟨⟨[(["a.deleted"], Node.file "")]⟩, ⟨[(["a", "b"], Node.file "v")]⟩⟩
        ["a", "b"] = false :=
  ⟨by decide, by decide, by decide, by decide,
    c1_overlay_exists_false_of_deleted_ancestor _ ["a", "b"] ["a"]
      (by decide) (by decide) (by decide)⟩

/-- C8: the existence-resolution result is internally consistent — whenever
`_check_exists_and_where` reports that a deletion marker was encountered
(`modification = 1`), it also reports `exists = False` and names `delta`
(`where = 0`); a resolution never claims a path is both deleted and existing. -/
theorem c8_check_deleted_consistent (st : OverlayState) (p : Pth)
    (h : (TransparentFS.check st p).modification = 1) :
    (TransparentFS.check st p).exists_ = false ∧
      (TransparentFS.check st p).where_ = 0 :=
  checkFrom_modification_one st.delta st.base p (TransparentFS.getPathTree p)
    true 0 (by omega) h

/-- Witness for C8 at a concrete overlay where the deletion marker is hit. -/
theorem c8_witness :
    (TransparentFS.check ⟨⟨[(["a.deleted"], Node.file "")]⟩, ⟨[]⟩⟩
        ["a"]).modification = 1 ∧
      ((TransparentFS.check ⟨⟨[(["a.deleted"], Node.file "")]⟩, ⟨[]⟩⟩
          ["a"]).exists_ = false ∧
        (TransparentFS.check ⟨⟨[(["a.deleted"], Node.file "")]⟩, ⟨[]⟩⟩
          ["a"]).where_ = 0) :=
  ⟨by decide, c8_check_deleted_consistent _ ["a"] (by decide)⟩

/-! ## Claim theorems: overlay removal and write/read round trip -/

/-- C2: `TransparentFileSystem.rm_file` never invokes a mutating operation on
`base`: the base layer of the result always equals the base layer before the
call (so `base.exists(p)` is unchanged); when the path resolves to `base`
(`exists` and `where = 1`) only the marker file `p + ".deleted"` is created in
`delta`; when it resolves to `delta` (non-existing paths also lead there) the
removal is performed in `delta` alone. -/
theorem c2_rm_file_never_mutates_base (st : OverlayState) (p : Pth) :
    baseOf (TransparentFS.rm_file st p) st.base = st.base ∧
      ((TransparentFS.check st p).exists_ = true →
        (TransparentFS.check st p).where_ = 1 →
        TransparentFS.rm_file st p =
          Except.ok ⟨st.delta.touch (addSuffix ".deleted" p), st.base⟩) ∧
      ((TransparentFS.check st p).exists_ = false ∨
          (TransparentFS.check st p).where_ = 0 →
        TransparentFS.rm_file st p =
          (FS.rm_file st.delta p).map (fun d => ⟨d, st.base⟩)) := by
  refine ⟨?_, ?_, ?_⟩
  · unfold TransparentFS.rm_file
    cases TransparentFS.leadingFs st p with
    | delta =>
        cases hrm : FS.rm_file st.delta p with
        | ok d => simp [baseOf, hrm, Except.map]
        | error e => simp [baseOf, hrm, Except.map]
    | base => simp [baseOf]
  · intro hex hwh
    unfold TransparentFS.rm_file TransparentFS.leadingFs
    simp [hex, hwh]
  · intro h
    unfold TransparentFS.rm_file TransparentFS.leadingFs
    rcases h with h | h
    · simp [h]
    · simp [h]

/-- Witness for C2 at a concrete overlay: `p = "f"` exists only in `base`, so
`rm_file` leaves `base` alone and only touches the `f.deleted` marker into
`delta`. -/
theorem c2_witness :
    baseOf
        (TransparentFS.rm_file ⟨⟨[]⟩, ⟨[(["f"], Node.file "v")]⟩⟩ ["f"])
        ⟨[(["f"], Node.file "v")]⟩ = ⟨[(["f"], Node.file "v")]⟩ ∧
      TransparentFS.rm_file ⟨⟨[]⟩, ⟨[(["f"], Node.file "v")]⟩⟩ ["f"] =
        Except.ok
          ⟨FS.touch ⟨[]⟩ (addSuffix ".deleted" ["f"]),
            ⟨[(["f"], Node.file "v")]⟩⟩ :=
  ⟨(c2_rm_file_never_mutates_base ⟨⟨[]⟩, ⟨[(["f"], Node.file "v")]⟩⟩ ["f"]).1,
    (c2_rm_file_never_mutates_base ⟨⟨[]⟩, ⟨[(["f"], Node.file "v")]⟩⟩
        ["f"]).2.1 (by decide) (by decide)⟩

/-- C4: writing content `c` to `p` through `open(p, "w")` (which first ensures
the parent chain in `delta` and then lands the write in `delta`) and reading
back with `read_text(p)` returns `c`; the read resolves to `delta` and `base`
is untouched by the write. -/
theorem c4_overlay_write_read_roundtrip (st : OverlayState) (p : Pth)
    (c : String) (hp : p ≠ []) :
    TransparentFS.read_text (TransparentFS.openW st p c) p = Except.ok c ∧
      TransparentFS.leadingFs (TransparentFS.openW st p c) p = Layer.delta ∧
      (TransparentFS.openW st p c).base = st.base := by
  have hdelta : (TransparentFS.openW st p c).delta.existsB p = true := by
    unfold TransparentFS.openW
    simp [FS.existsB, dictGet_insert_self]
  have hmem : p ∈ TransparentFS.getPathTree p := by
    obtain ⟨init, htree, _⟩ := getPathTree_decomp p hp
    rw [htree]
    exact List.mem_append_right _ (by simp)
  have hwhere :
      (TransparentFS.check (TransparentFS.openW st p c) p).where_ = 0 :=
    checkFrom_where_zero_of_mem _ _ p _ true 0 hmem hdelta
  have hlead :
      TransparentFS.leadingFs (TransparentFS.openW st p c) p = Layer.delta := by
    unfold TransparentFS.leadingFs
    cases hex : (TransparentFS.check (TransparentFS.openW st p c) p).exists_
    · simp [hex]
    · simp [hex, hwhere]
  refine ⟨?_, hlead, rfl⟩
  unfold TransparentFS.read_text
  rw [hlead]
  unfold TransparentFS.openW
  simp [FS.read_text, dictGet_insert_self]

/-- Witness for C4: write `"hello"` to `d/f` over a base that already holds
different content there, and read it back. -/
theorem c4_witness :
    (["d", "f"] : Pth) ≠ [] ∧
      TransparentFS.read_text
        (TransparentFS.openW ⟨⟨[]⟩, ⟨[(["d", "f"], Node.file "old")]⟩⟩
          ["d", "f"] "hello") ["d", "f"] = Except.ok "hello" :=
  ⟨by decide,
    (c4_overlay_write_read_roundtrip ⟨⟨[]⟩, ⟨[(["d", "f"], Node.file "old")]⟩⟩
      ["d", "f"] "hello" (by decide)).1⟩

/-! ## Claim theorem: overlay directory listing merge -/

/-- C3 (the code crashes instead): on the claim's own example — `base.ls(d)`
holding `d/x` and `d/y`, `delta.ls(d)` holding `d/x.deleted` and `d/z` —
`TransparentFileSystem.ls` raises in either detail mode instead of returning
the merged `{d/y, d/z}`: with `detail=True` the delta loop calls `endswith`
on a detail record, an `AttributeError`; with `detail=False` the base
comprehension indexes a bare name string with `["name"]`, a `TypeError`. -/
theorem c3_ls_crashes :
    (TransparentFS.ls
        [PyLsItem.record ⟨"d/x", "file", 1, 0, 0⟩,
          PyLsItem.record ⟨"d/y", "file", 2, 0, 0⟩]
        [PyLsItem.record ⟨"d/x.deleted", "file", 0, 0, 0⟩,
          PyLsItem.record ⟨"d/z", "file", 3, 0, 0⟩] =
      Except.error "AttributeError: dict object has no attribute endswith") ∧
    (TransparentFS.ls
        [PyLsItem.str "d/x", PyLsItem.str "d/y"]
        [PyLsItem.str "d/x.deleted", PyLsItem.str "d/z"] =
      Except.error "TypeError: string indices must be integers") :=
  ⟨rfl, rfl⟩

/-! ## Claim theorems: routing filesystem -/

/-- C5: for every path whose first `/`-separated segment is not a configured
mount key, `_get_filesystem` returns the `"default"` mount together with the
entire original path, unstripped; consequently `Routing.exists(p)` equals
`defaultFS.exists(p)`. -/
theorem c5_default_mount_passthrough (n : NestedFS) (p : String) (dfs : FSb)
    (h1 : dictGet n.file_systems (firstSegment p) = none)
    (h2 : dictGet n.file_systems "default" = some dfs) :
    n._get_filesystem p = Except.ok (dfs, "", p) ∧
      n.existsB p = Except.ok (dfs.existsB p) := by
  have hg : n._get_filesystem p = Except.ok (dfs, "", p) := by
    unfold firstSegment at h1
    cases hs : strSplitSlash p with
    | nil =>
        rw [hs] at h1
        simp only at h1
        simp only [NestedFS._get_filesystem, splitFirst, hs, h1, h2]
    | cons s tail =>
        rw [hs] at h1
        simp only at h1
        cases tail with
        | nil => simp only [NestedFS._get_filesystem, splitFirst, hs, h1, h2]
        | cons r rest =>
            simp only [NestedFS._get_filesystem, splitFirst, hs, h1, h2]
  refine ⟨hg, ?_⟩
  unfold NestedFS.existsB
  rw [hg]

/-- Witness for C5: with only a default mount, the path `q/f.txt` (no mount
key `q`) passes through whole. -/
theorem c5_witness :
    dictGet ([("default", (⟨[("q/f.txt", Node.file "v")]⟩ : FSb))])
        (firstSegment "q/f.txt") = none ∧
      NestedFS.existsB ⟨[("default", ⟨[("q/f.txt", Node.file "v")]⟩)]⟩
        "q/f.txt" = Except.ok true :=
  ⟨by decide,
    by
      have h := (c5_default_mount_passthrough
        ⟨[("default", ⟨[("q/f.txt", Node.file "v")]⟩)]⟩ "q/f.txt"
        ⟨[("q/f.txt", Node.file "v")]⟩ (by decide) (by decide)).2
      rw [h]
      rfl⟩

/-- C6 (the code crashes instead): both `cp_file` and `mv` bind
`fs1, nested_path1 = self._get_filesystem(path1)` — a two-name unpacking of
the 3-tuple `_get_filesystem` returns — so every call raises `ValueError`
before resolving or delegating anything. -/
theorem c6_cp_mv_always_raise (n : NestedFS) (p1 p2 : String) :
    isErr (NestedFS.cp_file n p1 p2) = true ∧
      isErr (NestedFS.mv n p1 p2) = true := by
  have key : ∀ q : String, ∀ t, n.getFilesystemTuple q = Except.ok t →
      unpack2 t =
        Except.error "ValueError: too many values to unpack (expected 2)" := by
    intro q t h
    unfold NestedFS.getFilesystemTuple at h
    cases hgf : n._get_filesystem q with
    | error e => rw [hgf] at h; exact Except.noConfusion h
    | ok r =>
        rw [hgf] at h
        obtain ⟨fs, root, nested⟩ := r
        cases h
        rfl
  constructor
  · unfold NestedFS.cp_file
    cases hg : n.getFilesystemTuple p1 with
    | error e => simp [isErr]
    | ok t => simp [key p1 t hg, isErr]
  · unfold NestedFS.mv
    cases hg : n.getFilesystemTuple p1 with
    | error e => simp [isErr]
    | ok t => simp [key p1 t hg, isErr]

/-- C7 counterexample: the claim says `rm("")` fails with a cannot-remove-root
error like `rmdir("")` does, but on a routing table with only a default mount,
`rm("")` succeeds and delegates the removal of path `""` to the default
mount. -/
theorem c7_counterexample :
    NestedFS.rm ⟨[("default", ⟨[("f", Node.file "v")]⟩)]⟩ "" false none =
      Except.ok (⟨[("f", Node.file "v")]⟩, "", false, none) := rfl

/-- C7 amended: `rmdir("")` always fails with the cannot-remove-root error,
but `rm("")` carries no such guard: whenever `""` is not itself a mount key
and a default mount exists, it delegates `rm` of the whole path `""` (with
unchanged arguments) to the default mount. -/
theorem c7_root_removal (n : NestedFS) (dfs : FSb) (r : Bool)
    (md : Option Int)
    (h0 : dictGet n.file_systems "" = none)
    (h2 : dictGet n.file_systems "default" = some dfs) :
    NestedFS.rmdir n "" = Except.error "ValueError: Cannot remove root path" ∧
      NestedFS.rm n "" r md = Except.ok (dfs, "", r, md) := by
  constructor
  · rfl
  · have hs : strSplitSlash "" = [""] := rfl
    have hg : n._get_filesystem "" = Except.ok (dfs, "", "") := by
      simp only [NestedFS._get_filesystem, splitFirst, hs, h0, h2]
    unfold NestedFS.rm
    rw [hg]
    cases md with
    | none => rfl
    | some v => simp

/-- Witness for C7's amended statement on a concrete mount table. -/
theorem c7_witness :
    NestedFS.rmdir ⟨[("default", ⟨[]⟩)]⟩ "" =
        Except.error "ValueError: Cannot remove root path" ∧
      NestedFS.rm ⟨[("default", ⟨[]⟩)]⟩ "" true (some 3) =
        Except.ok (⟨[]⟩, "", true, some 3) :=
  c7_root_removal ⟨[("default", ⟨[]⟩)]⟩ ⟨[]⟩ true (some 3)
    (by decide) (by decide)

/-- C9: `NestedFileSystem.walk` implements traversal only for the synthesized
root path `""`; for every other starting path the generator's whole body is
skipped and it silently yields no entries, instead of delegating to the
resolved mount. -/
theorem c9_walk_nonroot_empty (n : NestedFS) (dw : List WalkTriple)
    (ml : String → List LsItem) (p : String) (md : Option Int)
    (hp : p ≠ "") :
    NestedFS.walk n dw ml p md = Except.ok [] := by
  unfold NestedFS.walk
  rw [if_neg hp]

/-- Witness for C9 at the non-root path `"a"`, over a table whose default
mount and walk sequence are non-trivial. -/
theorem c9_witness :
    NestedFS.walk ⟨[("default", ⟨[("x", Node.file "v")]⟩)]⟩
      [("", ["d"], ["x"])] (fun _ => []) "a" none = Except.ok [] :=
  c9_walk_nonroot_empty _ _ _ "a" none (by decide)

/-- C10: `TransparentFileSystem.lexists` raises for every path instead of
returning a boolean: its body calls `self._get_filesystem`, an attribute
`TransparentFileSystem` does not define, so the link-existence check of the
capability interface is unusable on the overlay. -/
theorem c10_lexists_raises (st : OverlayState) (p : Pth) :
    TransparentFS.lexists st p =
      Except.error
        "AttributeError: TransparentFileSystem has no attribute _get_filesystem" :=
  rfl
